import Mathlib

/- Verification of the task-list service in backend/app.py:
   an in-memory list `tasks` with three handlers, `get_tasks` (GET /tasks),
   `add_task` (POST /tasks) and `update_task` (PUT /tasks/<task_id>).
   Handlers are embedded as pure functions that take the current store and
   return the new store together with the JSON response body and the HTTP
   status code. The Python `data['task']` lookup, which raises KeyError when
   the field is missing, is embedded as an Option-valued lookup, so the
   create handler returns `none` exactly when the source would crash. -/

namespace TaskApp

/-- JSON values, the universe of request-body fields and response bodies. -/
inductive Json where
  | null : Json
  | bool : Bool → Json
  | num : Int → Json
  | str : String → Json
  | arr : List Json → Json
  | obj : List (String × Json) → Json

/-- A task record, mirroring the dict built in `add_task`:
`{'id': ..., 'task': ..., 'completed': ...}`. The `task` and `completed`
values are whatever JSON the handlers store (Python never checks types). -/
structure Task where
  id : Nat
  task : Json
  completed : Json

/-- A parsed request body, `request.get_json()`: a dict from field names to
JSON values, embedded as an association list. -/
abbrev Body := List (String × Json)

/-- Python `d.get(k, dflt)`: the value at `k` when present, else `dflt`. -/
def dictGet (data : Body) (key : String) (dflt : Json) : Json :=
  (data.lookup key).getD dflt

/-- The initial store: `tasks = []` at process start. -/
def tasks : List Task := []

/-- Serialization of one task by `jsonify`: an object with exactly the
fields `id`, `task`, `completed`, in that order. -/
def taskToJson (t : Task) : Json :=
  Json.obj [("id", Json.num t.id), ("task", t.task), ("completed", t.completed)]

/-- The field names of a JSON object. -/
def objKeys : Json → List String
  | Json.obj fields => fields.map Prod.fst
  | _ => []

/-- GET /tasks: `return jsonify(tasks)`. Serializes the whole store in
order; status 200 (Flask default). The store is not touched. -/
def get_tasks (ts : List Task) : Json × Nat :=
  (Json.arr (ts.map taskToJson), 200)

/-- POST /tasks: reads `data['task']` (KeyError → `none` when absent),
builds `{'id': len(tasks) + 1, 'task': data['task'], 'completed': False}`,
appends it, and returns it with status 201. -/
def add_task (ts : List Task) (data : Body) : Option (List Task × Task × Nat) :=
  match data.lookup "task" with
  | none => none
  | some v =>
    let t : Task := { id := ts.length + 1, task := v, completed := Json.bool false }
    some (ts ++ [t], t, 201)

/-- PUT /tasks/<task_id>: linear scan for the first task whose id equals
`task_id`; on a match set `completed` to `data.get('completed', old)` and
return the task with 200; otherwise return the error body with 404. -/
def update_task (ts : List Task) (task_id : Nat) (data : Body) :
    List Task × Json × Nat :=
  match ts with
  | [] => ([], Json.obj [("error", Json.str "Task not found")], 404)
  | t :: rest =>
    if t.id = task_id then
      let t2 : Task := { t with completed := dictGet data "completed" t.completed }
      (t2 :: rest, taskToJson t2, 200)
    else
      let r := update_task rest task_id data
      (t :: r.1, r.2.1, r.2.2)

/-- Runs a sequence of create requests in order, threading the store;
`none` as soon as one create crashes on a missing `task` field. -/
def createAll (bodies : List Body) (ts : List Task) : Option (List Task) :=
  match bodies with
  | [] => some ts
  | b :: bs =>
    match add_task ts b with
    | none => none
    | some r => createAll bs r.1

/-- The store produced by creating the given descriptions in order, when
`n` tasks are already stored: ids count up from `n + 1`, fresh tasks are
not completed. -/
def mkTasks (n : Nat) : List String → List Task
  | [] => []
  | s :: ss =>
    { id := n + 1, task := Json.str s, completed := Json.bool false } :: mkTasks (n + 1) ss

/-- States of the store reachable from process start by any sequence of
create and update requests. -/
inductive Reachable : List Task → Prop where
  | init : Reachable tasks
  | create {ts ts2 t c data} : Reachable ts →
      add_task ts data = some (ts2, t, c) → Reachable ts2
  | update {ts tid data} : Reachable ts →
      Reachable (update_task ts tid data).1

/-- Core behavior of the linear scan in `update_task` when the first match
sits behind a prefix of non-matching tasks: the match has its `completed`
field replaced (Python `data.get('completed', old)`), everything else is
left in place, and the updated task is returned with 200. -/
theorem update_task_found (pre : List Task) (t : Task) (post : List Task)
    (tid : Nat) (data : Body)
    (hpre : ∀ u ∈ pre, u.id ≠ tid) (ht : t.id = tid) :
    update_task (pre ++ t :: post) tid data =
      (pre ++ { t with completed := dictGet data "completed" t.completed } :: post,
        taskToJson { t with completed := dictGet data "completed" t.completed }, 200) := by
  induction pre with
  | nil => simp [update_task, ht]
  | cons u rest ih =>
    have hu : u.id ≠ tid := hpre u (List.mem_cons_self u rest)
    have hrest : ∀ w ∈ rest, w.id ≠ tid := fun w hw => hpre w (List.mem_cons_of_mem u hw)
    simp [update_task, hu, ih hrest]

/-- Core behavior of `update_task` when no stored task has the requested
id: the loop falls through, the store is returned unchanged together with
the error body and 404. -/
theorem update_task_missing (ts : List Task) (tid : Nat) (data : Body)
    (h : ∀ u ∈ ts, u.id ≠ tid) :
    update_task ts tid data =
      (ts, Json.obj [("error", Json.str "Task not found")], 404) := by
  induction ts with
  | nil => rfl
  | cons u rest ih =>
    have hu : u.id ≠ tid := h u (List.mem_cons_self u rest)
    have hrest : ∀ w ∈ rest, w.id ≠ tid := fun w hw => h w (List.mem_cons_of_mem u hw)
    simp [update_task, hu, ih hrest]

/-- C1: the create operation assigns id = (number of stored tasks) + 1,
sets completed to false, appends the new task, and returns it with 201;
creating T1, T2, T3 from an empty store yields ids 1, 2, 3. -/
theorem create_assigns_sequential_id :
    (∀ (ts : List Task) (data : Body) (v : Json), data.lookup "task" = some v →
      add_task ts data =
        some (ts ++ [{ id := ts.length + 1, task := v, completed := Json.bool false }],
          { id := ts.length + 1, task := v, completed := Json.bool false }, 201))
    ∧ createAll [[("task", Json.str "T1")], [("task", Json.str "T2")],
        [("task", Json.str "T3")]] [] =
      some [{ id := 1, task := Json.str "T1", completed := Json.bool false },
        { id := 2, task := Json.str "T2", completed := Json.bool false },
        { id := 3, task := Json.str "T3", completed := Json.bool false }] := by
  constructor
  · intro ts data v h
    simp [add_task, h]
  · rfl

/-- Witness for C1 at a concrete input: creating "T1" in the empty store. -/
theorem create_assigns_sequential_id_witness :
    add_task [] [("task", Json.str "T1")] =
      some ([{ id := 1, task := Json.str "T1", completed := Json.bool false }],
        { id := 1, task := Json.str "T1", completed := Json.bool false }, 201) :=
  create_assigns_sequential_id.1 [] [("task", Json.str "T1")] (Json.str "T1") rfl

/-- C2: update scans for the first task whose id equals task_id; on a match
it sets completed to the body value when the body has a `completed` field,
leaves it unchanged otherwise (in particular for an empty body), and
returns that task with 200. -/
theorem update_sets_completed (pre : List Task) (t : Task) (post : List Task)
    (tid : Nat) (data : Body)
    (hpre : ∀ u ∈ pre, u.id ≠ tid) (ht : t.id = tid) :
    update_task (pre ++ t :: post) tid data =
      (pre ++ { t with completed := dictGet data "completed" t.completed } :: post,
        taskToJson { t with completed := dictGet data "completed" t.completed }, 200)
    ∧ (∀ v, data.lookup "completed" = some v →
        dictGet data "completed" t.completed = v)
    ∧ (data.lookup "completed" = none →
        dictGet data "completed" t.completed = t.completed)
    ∧ dictGet ([] : Body) "completed" t.completed = t.completed := by
  refine ⟨update_task_found pre t post tid data hpre ht, ?_, ?_, rfl⟩
  · intro v hv; simp [dictGet, hv]
  · intro hv; simp [dictGet, hv]

/-- Witness for C2: updating id 1 in a one-task store with an empty body
returns the task unchanged with 200. -/
theorem update_sets_completed_witness :
    update_task [{ id := 1, task := Json.str "a", completed := Json.bool false }] 1 [] =
      ([{ id := 1, task := Json.str "a", completed := Json.bool false }],
        taskToJson { id := 1, task := Json.str "a", completed := Json.bool false }, 200) :=
  (update_sets_completed [] { id := 1, task := Json.str "a", completed := Json.bool false }
    [] 1 [] (by simp) rfl).1

/-- C3: when no stored task has the requested id, update returns the
error body with 404 and leaves the store unchanged. -/
theorem update_not_found (ts : List Task) (tid : Nat) (data : Body)
    (h : ∀ u ∈ ts, u.id ≠ tid) :
    update_task ts tid data =
      (ts, Json.obj [("error", Json.str "Task not found")], 404) :=
  update_task_missing ts tid data h

/-- Witness for C3: updating id 9999 in a one-task store returns 404 with
the error body and the same store. -/
theorem update_not_found_witness :
    update_task [{ id := 1, task := Json.str "a", completed := Json.bool false }] 9999
        [("completed", Json.bool true)] =
      ([{ id := 1, task := Json.str "a", completed := Json.bool false }],
        Json.obj [("error", Json.str "Task not found")], 404) :=
  update_not_found [{ id := 1, task := Json.str "a", completed := Json.bool false }] 9999
    [("completed", Json.bool true)] (by decide)

/-- C5: update with body completed = true on the first matching task flips
only that task's completed field, keeps its id and task fields, and leaves
every other task untouched in its position. -/
theorem update_frame (pre : List Task) (t : Task) (post : List Task)
    (tid : Nat) (hpre : ∀ u ∈ pre, u.id ≠ tid) (ht : t.id = tid) :
    (update_task (pre ++ t :: post) tid [("completed", Json.bool true)]).1 =
      pre ++ { id := t.id, task := t.task, completed := Json.bool true } :: post := by
  have h := update_task_found pre t post tid [("completed", Json.bool true)] hpre ht
  rw [h]
  rfl

/-- Witness for C5: in a two-task store, updating id 2 completes only the
second task and leaves the first task untouched. -/
theorem update_frame_witness :
    (update_task [{ id := 1, task := Json.str "a", completed := Json.bool false },
      { id := 2, task := Json.str "b", completed := Json.bool false }] 2
      [("completed", Json.bool true)]).1 =
      [{ id := 1, task := Json.str "a", completed := Json.bool false },
        { id := 2, task := Json.str "b", completed := Json.bool true }] :=
  update_frame [{ id := 1, task := Json.str "a", completed := Json.bool false }]
    { id := 2, task := Json.str "b", completed := Json.bool false } [] 2
    (by decide) rfl

/-- C4: list returns the whole store serialized in insertion order with
status 200, each task as an object with exactly the fields id, task and
completed; the empty store lists as the empty array. -/
theorem list_returns_whole_store :
    (∀ ts : List Task, get_tasks ts = (Json.arr (ts.map taskToJson), 200))
    ∧ (∀ t : Task, objKeys (taskToJson t) = ["id", "task", "completed"])
    ∧ get_tasks [] = (Json.arr [], 200) :=
  ⟨fun _ => rfl, fun _ => rfl, rfl⟩

/-- Unfolds a successful create: the new store is the old one with the new
task appended, the new id is the old count plus one, the new task is not
completed, and the status is 201. -/
theorem add_task_some {ts ts2 : List Task} {data : Body} {t : Task} {c : Nat}
    (h : add_task ts data = some (ts2, t, c)) :
    ts2 = ts ++ [t] ∧ t.id = ts.length + 1 ∧ t.completed = Json.bool false
      ∧ c = 201 := by
  cases hv : data.lookup "task" with
  | none => simp [add_task, hv] at h
  | some v =>
    simp [add_task, hv] at h
    obtain ⟨h1, h2, h3⟩ := h
    exact ⟨by rw [← h1, ← h2], by rw [← h2], by rw [← h2], h3.symm⟩

/-- Running the creates for a list of descriptions appends exactly the
tasks of `mkTasks`, with ids counting on from the current store size. -/
theorem createAll_eq_mkTasks (ss : List String) (ts : List Task) :
    createAll (ss.map fun s => [("task", Json.str s)]) ts =
      some (ts ++ mkTasks ts.length ss) := by
  induction ss generalizing ts with
  | nil => simp [createAll, mkTasks]
  | cons s rest ih =>
    have step : add_task ts [("task", Json.str s)] =
        some (ts ++ [{ id := ts.length + 1, task := Json.str s,
                       completed := Json.bool false }],
          { id := ts.length + 1, task := Json.str s,
            completed := Json.bool false }, 201) := by
      simp [add_task]
    simp only [List.map_cons, createAll, step, ih, mkTasks, List.length_append,
      List.length_cons, List.length_nil, List.append_assoc, List.cons_append,
      List.nil_append]

/-- The number of tasks `mkTasks` builds equals the number of descriptions. -/
theorem mkTasks_length (n : Nat) (ss : List String) :
    (mkTasks n ss).length = ss.length := by
  induction ss generalizing n with
  | nil => rfl
  | cons s rest ih => simp [mkTasks, ih]

/-- The descriptions of the tasks `mkTasks` builds, in order. -/
theorem mkTasks_map_task (n : Nat) (ss : List String) :
    (mkTasks n ss).map Task.task = ss.map Json.str := by
  induction ss generalizing n with
  | nil => rfl
  | cons s rest ih => simp [mkTasks, ih]

/-- Every task `mkTasks` builds starts out not completed. -/
theorem mkTasks_completed (n : Nat) (ss : List String) :
    ∀ t ∈ mkTasks n ss, t.completed = Json.bool false := by
  induction ss generalizing n with
  | nil => intro t ht; cases ht
  | cons s rest ih =>
    intro t ht
    rcases List.mem_cons.mp ht with h | h
    · rw [h]
    · exact ih (n + 1) t h

/-- The ids `mkTasks` assigns count up one by one from `n + 1`. -/
theorem mkTasks_map_id (n : Nat) (ss : List String) :
    (mkTasks n ss).map Task.id = List.range' (n + 1) ss.length := by
  induction ss generalizing n with
  | nil => rfl
  | cons s rest ih => simp [mkTasks, ih, List.range']

/-- C6: creating N tasks with distinct descriptions from the empty store
and then listing yields exactly N objects, in creation order, each not
completed. -/
theorem create_sequence_in_order (ss : List String) (hd : ss.Nodup) :
    createAll (ss.map fun s => [("task", Json.str s)]) [] = some (mkTasks 0 ss)
    ∧ (mkTasks 0 ss).length = ss.length
    ∧ (mkTasks 0 ss).map Task.task = ss.map Json.str
    ∧ (∀ t ∈ mkTasks 0 ss, t.completed = Json.bool false)
    ∧ get_tasks (mkTasks 0 ss) = (Json.arr ((mkTasks 0 ss).map taskToJson), 200) := by
  refine ⟨?_, mkTasks_length 0 ss, mkTasks_map_task 0 ss, mkTasks_completed 0 ss, rfl⟩
  have h := createAll_eq_mkTasks ss []
  simpa using h

/-- Witness for C6 at the distinct descriptions "x", "y". -/
theorem create_sequence_in_order_witness :
    createAll [[("task", Json.str "x")], [("task", Json.str "y")]] [] =
      some (mkTasks 0 ["x", "y"]) :=
  (create_sequence_in_order ["x", "y"] (by decide)).1

/-- Update never changes the id or description of any task, nor the order:
position by position, the (id, task) pairs are untouched. -/
theorem update_preserves_id_task (ts : List Task) (tid : Nat) (data : Body) :
    ((update_task ts tid data).1).map (fun t => (t.id, t.task)) =
      ts.map fun t => (t.id, t.task) := by
  induction ts with
  | nil => rfl
  | cons u rest ih =>
    by_cases h : u.id = tid
    · simp [update_task, h]
    · simp [update_task, h, ih]

/-- Update keeps the number of stored tasks. -/
theorem update_preserves_length (ts : List Task) (tid : Nat) (data : Body) :
    (update_task ts tid data).1.length = ts.length := by
  have h := congrArg List.length (update_preserves_id_task ts tid data)
  simpa using h

/-- Update keeps the stored ids, position by position. -/
theorem update_preserves_ids (ts : List Task) (tid : Nat) (data : Body) :
    ((update_task ts tid data).1).map Task.id = ts.map Task.id := by
  have h := congrArg (List.map Prod.fst) (update_preserves_id_task ts tid data)
  simpa [List.map_map, Function.comp] using h

/-- C7: every operation preserves the store invariants: create only
appends, update keeps every task's id, description and position (the only
field it may change is completed), and list does not touch the store. -/
theorem ops_preserve_invariants :
    (∀ (ts ts2 : List Task) (data : Body) (t : Task) (c : Nat),
      add_task ts data = some (ts2, t, c) → ts2 = ts ++ [t])
    ∧ (∀ (ts : List Task) (tid : Nat) (data : Body),
      ((update_task ts tid data).1).map (fun t => (t.id, t.task)) =
        (ts.map fun t => (t.id, t.task))
      ∧ (update_task ts tid data).1.length = ts.length)
    ∧ (∀ ts : List Task, get_tasks ts = (Json.arr (ts.map taskToJson), 200)) :=
  ⟨fun _ _ _ _ _ h => (add_task_some h).1,
   fun ts tid data =>
     ⟨update_preserves_id_task ts tid data, update_preserves_length ts tid data⟩,
   fun _ => rfl⟩

/-- Witness for C7: a concrete create from the empty store only appends. -/
theorem ops_preserve_invariants_witness :
    ([{ id := 1, task := Json.str "a", completed := Json.bool false }] : List Task) =
      [] ++ [{ id := 1, task := Json.str "a", completed := Json.bool false }] :=
  ops_preserve_invariants.1 [] _ [("task", Json.str "a")] _ 201 rfl

/-- C8: a create whose body lacks a `task` field has no well-defined
response (the handler dies on the lookup, embedded as `none`); the
success branch is reachable only when the body has a `task` field. -/
theorem create_requires_task_field :
    (∀ (ts : List Task) (data : Body), data.lookup "task" = none →
      add_task ts data = none)
    ∧ (∀ (ts : List Task) (data : Body) (r : List Task × Task × Nat),
      add_task ts data = some r → ∃ v, data.lookup "task" = some v) := by
  constructor
  · intro ts data h
    simp [add_task, h]
  · intro ts data r h
    cases hv : data.lookup "task" with
    | none => simp [add_task, hv] at h
    | some v => exact ⟨v, rfl⟩

/-- Witness for C8: a create with an empty body crashes (returns none). -/
theorem create_requires_task_field_witness :
    add_task [] [] = none :=
  create_requires_task_field.1 [] [] rfl

/-- C10: a created task is never completed, whatever the body says: the
response depends on the body only through its `task` field, so a
`completed` field or any extra field in the create body has no effect. -/
theorem create_ignores_other_fields :
    (∀ (ts ts2 : List Task) (data : Body) (t : Task) (c : Nat),
      add_task ts data = some (ts2, t, c) → t.completed = Json.bool false)
    ∧ (∀ (ts : List Task) (d1 d2 : Body), d1.lookup "task" = d2.lookup "task" →
      add_task ts d1 = add_task ts d2) := by
  constructor
  · intro ts ts2 data t c h
    exact (add_task_some h).2.2.1
  · intro ts d1 d2 h
    unfold add_task
    rw [h]

/-- Witness for C10: a create body carrying completed = true still yields
a task with completed = false. -/
theorem create_ignores_other_fields_witness :
    ({ id := 1, task := Json.str "x", completed := Json.bool false } : Task).completed =
      Json.bool false :=
  create_ignores_other_fields.1 []
    [{ id := 1, task := Json.str "x", completed := Json.bool false }]
    [("task", Json.str "x"), ("completed", Json.bool true)]
    { id := 1, task := Json.str "x", completed := Json.bool false } 201 rfl

/-- In every reachable store, the stored ids are exactly 1, 2, ..., N in
order: create appends id = length + 1 and update never touches ids. -/
theorem reachable_map_id (ts : List Task) (h : Reachable ts) :
    ts.map Task.id = List.range' 1 ts.length := by
  induction h with
  | init => rfl
  | @create ts0 ts2 t c data hr hadd ih =>
    obtain ⟨h1, h2, h3, h4⟩ := add_task_some hadd
    subst h1
    have hc : List.range' 1 (ts0.length + 1) =
        List.range' 1 ts0.length ++ [1 + ts0.length] := by
      simpa using @List.range'_concat 1 1 ts0.length
    simp [ih, h2, hc, Nat.add_comm]
  | update hr ih =>
    rw [update_preserves_ids, update_preserves_length]
    exact ih

/-- C9: in every store reachable from process start by creates and
updates, the task at position i has id = i + 1; hence the ids are exactly
1..N, pairwise distinct, and an update matches at most one task. -/
theorem reachable_ids_positional (ts : List Task) (h : Reachable ts) :
    (∀ i (hi : i < ts.length), (ts.get ⟨i, hi⟩).id = i + 1)
    ∧ ts.map Task.id = List.range' 1 ts.length
    ∧ (ts.map Task.id).Nodup
    ∧ ∀ tid : Nat, (ts.countP fun t => t.id == tid) ≤ 1 := by
  have hmap := reachable_map_id ts h
  refine ⟨?_, hmap, ?_, ?_⟩
  · intro i hi
    have hi2 : i < (ts.map Task.id).length := by simpa using hi
    have hg : (ts.map Task.id).get ⟨i, hi2⟩ = (ts.get ⟨i, hi⟩).id := by simp
    have hstep := List.get_of_eq hmap ⟨i, hi2⟩
    rw [← hg, hstep]
    simp [List.getElem_range', Nat.add_comm]
  · rw [hmap]
    exact List.nodup_range' 1 ts.length
  · intro tid
    have hcp : (ts.countP fun t => t.id == tid) =
        List.count tid (ts.map Task.id) := by
      rw [List.count, List.countP_map]
      rfl
    rw [hcp, hmap]
    exact List.nodup_iff_count_le_one.mp (List.nodup_range' 1 ts.length) tid

/-- Witness for C9 at the store reached by one create from process
start: its single task sits at position 0 with id 1. -/
theorem reachable_ids_positional_witness :
    (([{ id := 1, task := Json.str "a", completed := Json.bool false }] : List Task).get
      ⟨0, by decide⟩).id = 0 + 1 :=
  (reachable_ids_positional
      [{ id := 1, task := Json.str "a", completed := Json.bool false }]
      (@Reachable.create tasks
        [{ id := 1, task := Json.str "a", completed := Json.bool false }]
        { id := 1, task := Json.str "a", completed := Json.bool false } 201
        [("task", Json.str "a")] Reachable.init rfl)).1 0 (by decide)

end TaskApp
